import Mathlib

/-!
Shallow embedding of the budget-tracker `BudgetEngine`
(`src/lib/budget-engine.ts`) over exact rational arithmetic.

Modelling conventions:
* Monetary values are `ℚ` (the source uses JS numbers; the spec fixes
  decimal semantics, and all engine arithmetic relevant to the claims is
  `+`, `-`, `*`, `/`, `min`, `max`, `abs`, and powers, which are exact
  on rationals).
* A month `YYYY-MM` is represented by its total month index
  (`year * 12 + monthNumber`), an integer.  `getPreviousMonth`, which in
  the source parses the string and subtracts one calendar month via the
  `Date` API, becomes subtraction of 1 on the index.  A transaction date
  `YYYY-MM-DD` is represented by the month index of its `YYYY-MM` part;
  `t.date.startsWith(month)` becomes equality of month indices.
* The ambient wall clock, read by the source through `Date.now()` (for
  generated budget ids) and `new Date()` (for target-date goal math), is
  an explicit `Clock` argument: `ms` models `Date.now()` and `ym` models
  the (year, month) of the current date as a month index.
* Optional JS fields are `Option`; JS truthiness tests on them are
  modelled by `truthyQ` / `truthyB` (`0`, `undefined` and `false` are
  falsy).
* `calculateGoalProgress`, which `throw`s on an unknown goal id, returns
  `Option` (`none` = the thrown `Goal not found` error); no other engine
  operation can throw.
* The engine mutates `this.data.budgets` in place; here every mutating
  operation returns the updated `BudgetData` alongside its source return
  value, and position/identity of updated records is preserved exactly
  as the in-place JS mutation preserves them.
-/

inductive TransactionType where
  | income | expense | transfer
  deriving DecidableEq

inductive AccountType where
  | checking | savings | credit_card | loan | investment | cash
  deriving DecidableEq

inductive GoalType where
  | target_balance | monthly_funding | target_date
  deriving DecidableEq

inductive Strategy where
  | snowball | avalanche
  deriving DecidableEq

structure Account where
  id : String
  name : String
  type : AccountType
  balance : ℚ
  interestRate : Option ℚ
  isActive : Bool
  deriving DecidableEq

structure Category where
  id : String
  ctype : TransactionType
  isDebt : Option Bool
  isGoal : Option Bool
  deriving DecidableEq

structure Transaction where
  id : String
  type : TransactionType
  accountId : String
  categoryId : String
  amount : ℚ
  month : ℤ
  deriving DecidableEq

structure Budget where
  id : String
  categoryId : String
  month : ℤ
  assigned : ℚ
  activity : ℚ
  available : ℚ
  deriving DecidableEq

structure Goal where
  id : String
  categoryId : String
  type : GoalType
  targetAmount : ℚ
  targetDate : Option ℤ
  monthlyFunding : Option ℚ
  currentAmount : ℚ
  isActive : Bool
  deriving DecidableEq

structure BudgetData where
  accounts : List Account
  categories : List Category
  transactions : List Transaction
  budgets : List Budget
  goals : List Goal
  deriving DecidableEq

/-- The ambient wall clock: `ms` models `Date.now()` (milliseconds), `ym`
the month index of the current date (`getFullYear`/`getMonth`). -/
structure Clock where
  ms : ℕ
  ym : ℤ
  deriving DecidableEq

/-- JS truthiness of an optional number: `undefined` and `0` are falsy. -/
def truthyQ : Option ℚ → Bool
  | none => false
  | some x => x ≠ 0

/-- JS truthiness of an optional boolean: only `true` is truthy. -/
def truthyB : Option Bool → Bool
  | none => false
  | some b => b

namespace BudgetEngine

/-- `getPreviousMonth` (source lines 259-264): calendar-decrement of a
`YYYY-MM` string, i.e. subtraction of 1 on the month index. -/
def getPreviousMonth (month : ℤ) : ℤ := month - 1

/-- `getMonthlyIncome` (source lines 237-241). -/
def getMonthlyIncome (d : BudgetData) (month : ℤ) : ℚ :=
  (d.transactions.filter (fun t => t.month = month ∧ t.type = .income)).foldl
    (fun sum t => sum + t.amount) 0

/-- `getCategoryActivity` (source lines 243-247): signed sum of the
category's transactions in the month, expenses negated. -/
def getCategoryActivity (d : BudgetData) (categoryId : String) (month : ℤ) : ℚ :=
  (d.transactions.filter (fun t => t.month = month ∧ t.categoryId = categoryId)).foldl
    (fun sum t => sum + (if t.type = .expense then -t.amount else t.amount)) 0

/-- The predicate used by `budgets.find` for the `(categoryId, month)` key. -/
def budgetKey (categoryId : String) (month : ℤ) (b : Budget) : Bool :=
  b.categoryId = categoryId ∧ b.month = month

/-- `calculateCategoryAvailable` (source lines 82-97):
stored previous-month `available` (0 if no record) + this month's
`assigned` field (0 if no record) + recomputed activity. -/
def calculateCategoryAvailable (d : BudgetData) (categoryId : String) (month : ℤ) : ℚ :=
  let budget := d.budgets.find? (budgetKey categoryId month)
  let previousBudget := d.budgets.find? (budgetKey categoryId (getPreviousMonth month))
  let assigned := ((budget.map Budget.assigned).getD 0)
  let activity := getCategoryActivity d categoryId month
  let previousAvailable := ((previousBudget.map Budget.available).getD 0)
  previousAvailable + assigned + activity

/-- `calculateOverspending` (source lines 251-257): sum over the month's
budget records of `max 0 (-available)`, with `available` recomputed. -/
def calculateOverspending (d : BudgetData) (month : ℤ) : ℚ :=
  (d.budgets.filter (fun b => b.month = month)).foldl
    (fun sum b => sum + max 0 (-(calculateCategoryAvailable d b.categoryId month))) 0

/-- `calculateAvailableToBudget` (source lines 16-31). -/
def calculateAvailableToBudget (d : BudgetData) (month : ℤ) : ℚ :=
  let monthlyIncome := getMonthlyIncome d month
  let previousMonth := getPreviousMonth month
  let previousMonthAssigned :=
    (d.budgets.filter (fun b => b.month = previousMonth)).foldl
      (fun sum b => sum + b.assigned) 0
  let previousMonthIncome := getMonthlyIncome d previousMonth
  let previousUnassigned := max 0 (previousMonthIncome - previousMonthAssigned)
  let previousOverspending := calculateOverspending d previousMonth
  monthlyIncome + previousUnassigned - previousOverspending

structure MonthlySummary where
  availableToBudget : ℚ
  totalAssigned : ℚ
  toBeBudgeted : ℚ
  isFullyAssigned : Bool
  isOverAssigned : Bool

/-- `getMonthlyBudgetSummary` (source lines 36-49). -/
def getMonthlyBudgetSummary (d : BudgetData) (month : ℤ) : MonthlySummary :=
  let totalAssigned :=
    (d.budgets.filter (fun b => b.month = month)).foldl (fun sum b => sum + b.assigned) 0
  let availableToBudget := calculateAvailableToBudget d month
  let toBeBudgeted := availableToBudget - totalAssigned
  { availableToBudget := availableToBudget
    totalAssigned := totalAssigned
    toBeBudgeted := toBeBudgeted
    isFullyAssigned := toBeBudgeted = 0
    isOverAssigned := toBeBudgeted < 0 }

/-- In-place mutation of the first budget record matching the key
(the JS `find` returns a reference which is then mutated; list order and
all other records are untouched). -/
def updateBudget (categoryId : String) (month : ℤ) (f : Budget → Budget) :
    List Budget → List Budget
  | [] => []
  | b :: bs =>
    if budgetKey categoryId month b then f b :: bs
    else b :: updateBudget categoryId month f bs

/-- Fallback record for the provably unreachable `find?`-failure branch
inside `assignMoney`'s update path. -/
def defaultBudget : Budget :=
  { id := "", categoryId := "", month := 0, assigned := 0, activity := 0, available := 0 }

/-- `assignMoney` (source lines 54-76).  Update branch: the record's
`assigned` is bumped first, then `available` is recomputed on the
already-mutated data and stored.  Create branch: the new record's
`available` is computed *before* the push, so the data seen by
`calculateCategoryAvailable` has no `(categoryId, month)` record yet; the
generated id is `budget-` + `Date.now()` + `-` + categoryId. -/
def assignMoney (ck : Clock) (d : BudgetData) (categoryId : String) (month : ℤ)
    (amount : ℚ) : Budget × BudgetData :=
  match d.budgets.find? (budgetKey categoryId month) with
  | some _ =>
    let budgets1 := updateBudget categoryId month
      (fun b => { b with assigned := b.assigned + amount }) d.budgets
    let d1 := { d with budgets := budgets1 }
    let avail := calculateCategoryAvailable d1 categoryId month
    let budgets2 := updateBudget categoryId month
      (fun b => { b with available := avail }) budgets1
    let returned := (budgets2.find? (budgetKey categoryId month)).getD defaultBudget
    (returned, { d with budgets := budgets2 })
  | none =>
    let newBudget : Budget :=
      { id := "budget-" ++ toString ck.ms ++ "-" ++ categoryId
        categoryId := categoryId
        month := month
        assigned := amount
        activity := getCategoryActivity d categoryId month
        available := 0 }
    let newBudget2 := { newBudget with available := calculateCategoryAvailable d categoryId month }
    (newBudget2, { d with budgets := d.budgets ++ [newBudget2] })

structure GoalProgress where
  progress : ℚ
  monthsRemaining : ℤ
  onTrack : Bool
  recommendedMonthly : ℚ
  deriving DecidableEq

/-- The `monthsRemaining` / `onTrack` / `recommendedMonthly` branch of
`calculateGoalProgress` (source lines 204-225), starting from the
defaults `(0, true, 0)`.  For `target_date` goals the source reads the
current date (`new Date()`), modelled by `ck.ym`; a goal's `targetDate`
string is represented by its month index, and the source's
`(ty - ny) * 12 + (tm - nm)` is the difference of month indices. -/
def goalTimeline (ck : Clock) (goal : Goal) : ℤ × Bool × ℚ :=
  match goal.type, goal.targetDate with
  | .target_date, some t =>
    let monthsRemaining := max 0 (t - ck.ym)
    if 0 < monthsRemaining then
      let recommendedMonthly :=
        (goal.targetAmount - goal.currentAmount) / (monthsRemaining : ℚ)
      let onTrack :=
        match goal.monthlyFunding with
        | some mf => if mf ≠ 0 then decide (recommendedMonthly ≤ mf) else false
        | none => false
      (monthsRemaining, onTrack, recommendedMonthly)
    else (monthsRemaining, true, 0)
  | gt, _td =>
    if gt = .monthly_funding ∧ truthyQ goal.monthlyFunding then
      let recommendedMonthly := goal.monthlyFunding.getD 0
      let monthsRemaining :=
        if 0 < recommendedMonthly then
          ⌈(goal.targetAmount - goal.currentAmount) / recommendedMonthly⌉
        else 0
      (monthsRemaining, true, recommendedMonthly)
    else (0, true, 0)

/-- `calculateGoalProgress` (source lines 192-233).  `none` models the
thrown `Goal not found` error; `progress` is computed before the
timeline branch, exactly as in the source. -/
def calculateGoalProgress (ck : Clock) (d : BudgetData) (goalId : String) :
    Option GoalProgress :=
  match d.goals.find? (fun g => g.id = goalId) with
  | none => none
  | some goal =>
    let progress :=
      if 0 < goal.targetAmount then goal.currentAmount / goal.targetAmount * 100 else 0
    let timeline := goalTimeline ck goal
    some { progress := progress, monthsRemaining := timeline.1
           onTrack := timeline.2.1, recommendedMonthly := timeline.2.2 }

/-- `getOverspentCategories` (source lines 319-324). -/
def getOverspentCategories (d : BudgetData) (month : ℤ) : List String :=
  ((d.budgets.filter (fun b => b.month = month)).filter
    (fun b => calculateCategoryAvailable d b.categoryId month < 0)).map Budget.categoryId

/-- First pass of `autoAssignMoney` (source lines 277-287): cover
overspent categories.  The `for` loop with its `break` on exhausted funds
is the recursion on the (pre-computed) category list; the state is the
accumulated touched-record list, the remaining money, and the evolving
ledger. -/
def autoAssignPass1 (ck : Clock) (month : ℤ) :
    List String → List Budget × ℚ × BudgetData → List Budget × ℚ × BudgetData
  | [], st => st
  | categoryId :: rest, (acc, remainingMoney, d) =>
    if remainingMoney ≤ 0 then (acc, remainingMoney, d)
    else
      let needed := |calculateCategoryAvailable d categoryId month|
      let toAssign := min needed remainingMoney
      let st := assignMoney ck d categoryId month toAssign
      autoAssignPass1 ck month rest (acc ++ [st.1], remainingMoney - toAssign, st.2)

/-- Second pass of `autoAssignMoney` (source lines 290-314): fund goals
in priority order.  The source's `calculateGoalProgress(goal.id)` cannot
throw here (a goal with that id was just found), so the `none` branch is
unreachable and skips. -/
def autoAssignPass2 (ck : Clock) (month : ℤ) :
    List String → List Budget × ℚ × BudgetData → List Budget × ℚ × BudgetData
  | [], st => st
  | categoryId :: rest, (acc, remainingMoney, d) =>
    if remainingMoney ≤ 0 then (acc, remainingMoney, d)
    else
      if truthyB ((d.categories.find? (fun c => c.id = categoryId)).map Category.isGoal).join then
        match d.goals.find? (fun g => g.categoryId = categoryId ∧ g.isActive) with
        | some goal =>
          match calculateGoalProgress ck d goal.id with
          | some gp =>
            let currentAssigned :=
              (((d.budgets.find? (budgetKey categoryId month)).map Budget.assigned).getD 0)
            let toAssign := min (max 0 (gp.recommendedMonthly - currentAssigned)) remainingMoney
            if 0 < toAssign then
              let st := assignMoney ck d categoryId month toAssign
              autoAssignPass2 ck month rest (acc ++ [st.1], remainingMoney - toAssign, st.2)
            else autoAssignPass2 ck month rest (acc, remainingMoney, d)
          | none => autoAssignPass2 ck month rest (acc, remainingMoney, d)
        | none => autoAssignPass2 ck month rest (acc, remainingMoney, d)
      else autoAssignPass2 ck month rest (acc, remainingMoney, d)

/-- `autoAssignMoney` (source lines 269-317). -/
def autoAssignMoney (ck : Clock) (d : BudgetData) (month : ℤ) (priorities : List String) :
    List Budget × BudgetData :=
  let toBeBudgeted := (getMonthlyBudgetSummary d month).toBeBudgeted
  if toBeBudgeted ≤ 0 then ([], d)
  else
    let overspentCategories := getOverspentCategories d month
    let st1 := autoAssignPass1 ck month overspentCategories ([], toBeBudgeted, d)
    let st2 := autoAssignPass2 ck month priorities st1
    (st2.1, st2.2.2)

/-- `getDebtAccounts` (source lines 104-108). -/
def getDebtAccounts (d : BudgetData) : List Account :=
  d.accounts.filter (fun a => a.type = .credit_card ∨ a.type = .loan)

/-- `calculateLoanPayment` (source lines 154-162), with the default
10-year term: standard fixed-payment amortization. -/
def calculateLoanPayment (balance : ℚ) (annualRate : ℚ) : ℚ :=
  let monthlyRate := annualRate / 100 / 12
  let numPayments : ℚ := 10 * 12
  if monthlyRate = 0 then balance / numPayments
  else balance * (monthlyRate * (1 + monthlyRate) ^ (120 : ℕ)) /
    ((1 + monthlyRate) ^ (120 : ℕ) - 1)

/-- A JS `number` as produced by the payoff-time math: a (real) finite
value, a signed infinity, or `NaN`. -/
inductive JSNum where
  | num (x : ℝ)
  | posInf
  | negInf
  | nan

/-- `Math.log`: positive argument gives the real logarithm, `log 0` is
`-Infinity`, and a negative argument gives `NaN`. -/
noncomputable def jsLog (x : ℝ) : JSNum :=
  if 0 < x then .num (Real.log x) else if x = 0 then .negInf else .nan

/-- JS unary minus on a number. -/
def jsNeg : JSNum → JSNum
  | .num x => .num (-x)
  | .posInf => .negInf
  | .negInf => .posInf
  | .nan => .nan

/-- JS division (signed zeroes are not modelled; no denominator in the
engine's payoff math is a negative zero). -/
noncomputable def jsDiv : JSNum → JSNum → JSNum
  | .nan, _ => .nan
  | _, .nan => .nan
  | .num a, .num b =>
    if b ≠ 0 then .num (a / b)
    else if 0 < a then .posInf else if a < 0 then .negInf else .nan
  | .num _, .posInf => .num 0
  | .num _, .negInf => .num 0
  | .posInf, .num b => if 0 ≤ b then .posInf else .negInf
  | .negInf, .num b => if 0 ≤ b then .negInf else .posInf
  | .posInf, _ => .nan
  | .negInf, _ => .nan

/-- `Math.ceil`. -/
noncomputable def jsCeil : JSNum → JSNum
  | .num x => .num (⌈x⌉ : ℤ)
  | .posInf => .posInf
  | .negInf => .negInf
  | .nan => .nan

/-- JS multiplication, restricted to the shapes arising in
`payment * months` with a finite positive `payment`. -/
def jsMul (a : ℚ) : JSNum → JSNum
  | .num x => .num (a * x)
  | .posInf => if 0 < a then .posInf else if a < 0 then .negInf else .nan
  | .negInf => if 0 < a then .negInf else if a < 0 then .posInf else .nan
  | .nan => .nan

/-- JS subtraction of a finite value from a number. -/
def jsSub : JSNum → ℚ → JSNum
  | .num x, b => .num (x - b)
  | .posInf, _ => .posInf
  | .negInf, _ => .negInf
  | .nan, _ => .nan

/-- `Math.max(0, x)`: `NaN` propagates, infinities are compared as
expected. -/
noncomputable def jsMax0 : JSNum → JSNum
  | .num x => .num (max 0 x)
  | .posInf => .posInf
  | .negInf => .num 0
  | .nan => .nan

/-- Whether a JS number is finite (neither an infinity nor `NaN`). -/
def isFiniteNum : JSNum → Bool
  | .num _ => true
  | _ => false

/-- `calculatePayoffTime` (source lines 167-185), returning
`(months, totalInterest)`.  All inputs are ledger rationals; the
transcendental `Math.log` steps live in `JSNum`. -/
noncomputable def calculatePayoffTime (balance annualRate payment : ℚ) : JSNum × JSNum :=
  if payment ≤ 0 then (.posInf, .num 0)
  else
    let monthlyRate := annualRate / 100 / 12
    if monthlyRate = 0 then (.num (⌈balance / payment⌉ : ℤ), .num 0)
    else
      let months := jsCeil (jsDiv
        (jsNeg (jsLog ((1 - balance * monthlyRate / payment : ℚ) : ℝ)))
        (jsLog ((1 + monthlyRate : ℚ) : ℝ)))
      let totalInterest := jsSub (jsMul payment months) balance
      (months, jsMax0 totalInterest)

structure PlanEntry where
  accountId : String
  name : String
  balance : ℚ
  interestRate : ℚ
  minimumPayment : ℚ
  payoffOrder : ℕ
  monthsToPayoff : JSNum
  totalInterest : JSNum

/-- The first stage of `calculateDebtPayoffPlan` (source lines 115-126):
the per-account map building the plan entries.  Note the JS conditional
`debt.interestRate ? this.calculateLoanPayment(...) : 0`: a missing or
zero interest rate is falsy, so such a loan gets `minimumPayment = 0`
and `calculateLoanPayment` is not called. -/
def toPlanEntry (debt : Account) : PlanEntry :=
  { accountId := debt.id
    name := debt.name
    balance := |debt.balance|
    interestRate := (debt.interestRate.getD 0)
    minimumPayment :=
      if debt.type = .credit_card then max 25 (|debt.balance| * (2 / 100))
      else if truthyQ debt.interestRate then
        calculateLoanPayment |debt.balance| (debt.interestRate.getD 0)
      else 0
    payoffOrder := 0
    monthsToPayoff := .num 0
    totalInterest := .num 0 }

/-- The sort relation of the `avalanche` comparator
`(a, b) => b.interestRate - a.interestRate` (highest rate first). -/
def avalancheRel (a b : PlanEntry) : Prop := b.interestRate ≤ a.interestRate

/-- The sort relation of the `snowball` comparator
`(a, b) => a.balance - b.balance` (smallest balance first). -/
def snowballRel (a b : PlanEntry) : Prop := a.balance ≤ b.balance

instance : DecidableRel avalancheRel :=
  fun a b => inferInstanceAs (Decidable (b.interestRate ≤ a.interestRate))

instance : DecidableRel snowballRel :=
  fun a b => inferInstanceAs (Decidable (a.balance ≤ b.balance))

instance : IsTotal PlanEntry avalancheRel := ⟨fun a b => le_total b.interestRate a.interestRate⟩

instance : IsTrans PlanEntry avalancheRel :=
  ⟨fun _ _ _ h1 h2 => le_trans h2 h1⟩

instance : IsTotal PlanEntry snowballRel := ⟨fun a b => le_total a.balance b.balance⟩

instance : IsTrans PlanEntry snowballRel :=
  ⟨fun _ _ _ h1 h2 => le_trans h1 h2⟩

/-- The `plan.forEach((debt, index) => ...)` stage of
`calculateDebtPayoffPlan` (source lines 136-146): walk the sorted list
with its index, setting `payoffOrder = index + 1` and the payoff
timeline, where only the first-ranked debt receives the extra payment. -/
noncomputable def finalizePlan (extraPayment : ℚ) : ℕ → List PlanEntry → List PlanEntry
  | _, [] => []
  | index, e :: rest =>
    let pt := calculatePayoffTime e.balance e.interestRate
      (e.minimumPayment + (if index = 0 then extraPayment else 0))
    { e with payoffOrder := index + 1, monthsToPayoff := pt.1, totalInterest := pt.2 } ::
      finalizePlan extraPayment (index + 1) rest

/-- `calculateDebtPayoffPlan` (source lines 113-149).  The JS
`Array.prototype.sort` with a consistent comparator is modelled by the
stable `List.insertionSort` on the comparator's `≤ 0` relation. -/
noncomputable def calculateDebtPayoffPlan (d : BudgetData) (extraPayment : ℚ)
    (strategy : Strategy) : List PlanEntry :=
  let plan := (getDebtAccounts d).map toPlanEntry
  let sorted :=
    match strategy with
    | .avalanche => plan.insertionSort avalancheRel
    | .snowball => plan.insertionSort snowballRel
  finalizePlan extraPayment 0 sorted

/-- Total money assigned across a budget collection (the measure used to
state how much an operation adds to the ledger). -/
def sumAssigned (l : List Budget) : ℚ := l.foldl (fun sum b => sum + b.assigned) 0

/-- The data-model invariant: at most one budget record per
`(categoryId, month)` pair. -/
def UniqueBudgets (l : List Budget) : Prop :=
  l.Pairwise (fun a b => ¬(a.categoryId = b.categoryId ∧ a.month = b.month))

instance : DecidablePred UniqueBudgets := fun l =>
  inferInstanceAs (Decidable (l.Pairwise _))

/-- A budget-mutating engine call: the two operations that touch the
budget collection. -/
inductive EngineOp where
  | assign (ck : Clock) (categoryId : String) (month : ℤ) (amount : ℚ)
  | autoAssign (ck : Clock) (month : ℤ) (priorities : List String)

/-- Run one budget-mutating engine call on the ledger. -/
def applyOp (d : BudgetData) : EngineOp → BudgetData
  | .assign ck categoryId month amount => (assignMoney ck d categoryId month amount).2
  | .autoAssign ck month priorities => (autoAssignMoney ck d month priorities).2

/-- A budget record with its generated id blanked out, for stating
which parts of `assignMoney`'s output are independent of the clock. -/
def eraseId (b : Budget) : Budget := { b with id := "" }

/-- The `(categoryId, month)` key of a budget record. -/
def keyPair (b : Budget) : String × ℤ := (b.categoryId, b.month)

/-! Concrete ledgers used to exercise the theorems on explicit inputs. -/

def exClock : Clock := { ms := 0, ym := 0 }

def exClock2 : Clock := { ms := 1, ym := 0 }

/-- A small ledger: one income transaction of 100 in month 10, one
savings goal 1500 / 6000. -/
def exData : BudgetData :=
  { accounts := []
    categories := []
    transactions := [{ id := "t1", type := .income, accountId := "checking",
                       categoryId := "salary", amount := 100, month := 10 }]
    budgets := []
    goals := [{ id := "g1", categoryId := "emergency-fund", type := .target_balance,
                targetAmount := 6000, targetDate := none, monthlyFunding := none,
                currentAmount := 1500, isActive := true }] }

/-- A ledger whose single budget record (month 9) is consistent: its
stored `available` equals the recomputed category available. -/
def exDataC1 : BudgetData :=
  { accounts := [], categories := [], transactions := []
    budgets := [{ id := "b1", categoryId := "food", month := 9, assigned := 5,
                  activity := 0, available := 5 }]
    goals := [] }

/-- A loan with a 0% interest rate and balance 1200. -/
def exDataLoan : BudgetData :=
  { accounts := [{ id := "loan-1", name := "Car Loan", type := .loan, balance := -1200,
                   interestRate := some 0, isActive := true }]
    categories := [], transactions := [], budgets := [], goals := [] }

/-- A loan with a 6% annual rate and balance 10000. -/
def exLoanAcc : Account :=
  { id := "loan-2", name := "Student Loan", type := .loan, balance := -10000,
    interestRate := some 6, isActive := true }

def exDataLoan2 : BudgetData :=
  { accounts := [exLoanAcc], categories := [], transactions := [], budgets := [], goals := [] }

/-- A credit card whose 2% minimum payment (200) does not cover its
first-month interest (10000 × 36%/12 = 300). -/
def exDataCard : BudgetData :=
  { accounts := [{ id := "cc-1", name := "Card", type := .credit_card, balance := -10000,
                   interestRate := some 36, isActive := true }]
    categories := [], transactions := [], budgets := [], goals := [] }

/-- Two credit cards with rates 24% and 12%. -/
def exDataTwoCards : BudgetData :=
  { accounts := [{ id := "cc-a", name := "Card A", type := .credit_card, balance := -500,
                   interestRate := some 12, isActive := true },
                 { id := "cc-b", name := "Card B", type := .credit_card, balance := -2000,
                   interestRate := some 24, isActive := true }]
    categories := [], transactions := [], budgets := [], goals := [] }

end BudgetEngine

namespace BudgetEngine

theorem budgetKey_iff {c : String} {m : ℤ} {b : Budget} :
    budgetKey c m b = true ↔ b.categoryId = c ∧ b.month = m := by
  simp [budgetKey]

theorem foldl_add_eq {α : Type} (f : α → ℚ) :
    ∀ (l : List α) (init : ℚ), l.foldl (fun s x => s + f x) init = init + (l.map f).sum
  | [], init => by simp
  | x :: xs, init => by
    simp [List.foldl_cons, foldl_add_eq f xs, add_assoc]

theorem sumAssigned_eq (l : List Budget) :
    sumAssigned l = (l.map Budget.assigned).sum := by
  simpa using foldl_add_eq Budget.assigned l 0

theorem find?_updateBudget {c : String} {m : ℤ} {f : Budget → Budget}
    (hf : ∀ b, budgetKey c m b = true → budgetKey c m (f b) = true) :
    ∀ l : List Budget,
      (updateBudget c m f l).find? (budgetKey c m) = (l.find? (budgetKey c m)).map f
  | [] => rfl
  | b :: bs => by
    by_cases hb : budgetKey c m b = true
    · simp [updateBudget, hb, List.find?_cons, hf b hb]
    · simp [updateBudget, hb, find?_updateBudget (f := f) hf bs]

theorem map_updateBudget {c : String} {m : ℤ} {f : Budget → Budget} {g : Budget → α}
    (hf : ∀ b, budgetKey c m b = true → g (f b) = g b) :
    ∀ l : List Budget, (updateBudget c m f l).map g = l.map g
  | [] => rfl
  | b :: bs => by
    by_cases hb : budgetKey c m b = true
    · simp [updateBudget, hb, hf b hb]
    · simp [updateBudget, hb, map_updateBudget hf bs]

theorem sumAssigned_updateBudget_add {c : String} {m : ℤ} {a : ℚ} :
    ∀ l : List Budget, (l.find? (budgetKey c m)).isSome = true →
      sumAssigned (updateBudget c m (fun b => { b with assigned := b.assigned + a }) l) =
        sumAssigned l + a
  | [], h => by rw [List.find?_nil] at h; exact absurd h (by decide)
  | b :: bs, h => by
    by_cases hb : budgetKey c m b = true
    · simp [updateBudget, hb, sumAssigned_eq, add_assoc, add_comm, add_left_comm]
    · have hbs : (bs.find? (budgetKey c m)).isSome = true := by
        simpa [List.find?_cons, hb] using h
      have ih := sumAssigned_updateBudget_add (a := a) bs hbs
      simp only [sumAssigned_eq, List.map_cons, List.sum_cons] at ih ⊢
      simp [updateBudget, hb, ih]
      ring

theorem sumAssigned_updateBudget_avail {c : String} {m : ℤ} {v : ℚ} (l : List Budget) :
    sumAssigned (updateBudget c m (fun b => { b with available := v }) l) = sumAssigned l := by
  rw [sumAssigned_eq, sumAssigned_eq, map_updateBudget (g := Budget.assigned)]
  intro b _
  rfl

theorem sumAssigned_append (l : List Budget) (b : Budget) :
    sumAssigned (l ++ [b]) = sumAssigned l + b.assigned := by
  simp [sumAssigned_eq]

/-- Key fact for C7: the `assigned` field of the `(categoryId, month)`
record after `assignMoney` is the prior value (0 if the record was
absent) plus the amount. -/
theorem assignMoney_find_assigned (ck : Clock) (d : BudgetData) (c : String) (m : ℤ)
    (a : ℚ) :
    (((assignMoney ck d c m a).2.budgets.find? (budgetKey c m)).map Budget.assigned) =
      some ((((d.budgets.find? (budgetKey c m)).map Budget.assigned).getD 0) + a) := by
  rcases hfind : d.budgets.find? (budgetKey c m) with _ | b0
  · simp only [assignMoney, hfind]
    rw [List.find?_append, hfind]
    simp [List.find?_cons, budgetKey]
  · have h1 : ∀ b : Budget, budgetKey c m b = true →
        budgetKey c m ({ b with assigned := b.assigned + a }) = true := by
      intro b hb; simpa [budgetKey_iff] using budgetKey_iff.mp hb
    have h2 : ∀ (v : ℚ) (b : Budget), budgetKey c m b = true →
        budgetKey c m ({ b with available := v }) = true := by
      intro v b hb; simpa [budgetKey_iff] using budgetKey_iff.mp hb
    simp only [assignMoney, hfind]
    rw [find?_updateBudget (h2 _), find?_updateBudget h1, hfind]
    rfl


/-- C7: `assignMoney` is additive in amount: assigning `a` then `b` to
the same `(categoryId, month)` envelope leaves its Budget record with
the same `assigned` value as a single call assigning `a + b` (whatever
the clock of each call). -/
theorem assignMoney_additive (ck1 ck2 ck3 : Clock) (d : BudgetData) (c : String)
    (m : ℤ) (a b : ℚ) :
    (((assignMoney ck2 (assignMoney ck1 d c m a).2 c m b).2.budgets.find?
        (budgetKey c m)).map Budget.assigned) =
      (((assignMoney ck3 d c m (a + b)).2.budgets.find? (budgetKey c m)).map
        Budget.assigned) := by
  rw [assignMoney_find_assigned, assignMoney_find_assigned, assignMoney_find_assigned]
  simp [add_assoc]

/-- C9 (amended): each operation is a deterministic function of ledger,
arguments and the ambient clock, and `assignMoney`'s dependence on the
clock is confined to the generated record id: runs at two different
clock values agree on every field of the returned record except `id`,
and on the whole ledger up to generated ids. -/
theorem assignMoney_clock_only_id (ck1 ck2 : Clock) (d : BudgetData) (c : String)
    (m : ℤ) (a : ℚ) :
    eraseId (assignMoney ck1 d c m a).1 = eraseId (assignMoney ck2 d c m a).1 ∧
    (assignMoney ck1 d c m a).2.budgets.map eraseId =
      (assignMoney ck2 d c m a).2.budgets.map eraseId ∧
    (assignMoney ck1 d c m a).2.accounts = (assignMoney ck2 d c m a).2.accounts ∧
    (assignMoney ck1 d c m a).2.transactions = (assignMoney ck2 d c m a).2.transactions ∧
    (assignMoney ck1 d c m a).2.goals = (assignMoney ck2 d c m a).2.goals := by
  rcases hfind : d.budgets.find? (budgetKey c m) with _ | b0 <;>
    simp [assignMoney, hfind, eraseId]

/-- C9 is false as stated: two runs of `assignMoney` with identical
arguments on identical ledger snapshots, performed at different
wall-clock instants (`Date.now()` = 0 vs 1), return Budget records with
different generated ids. -/
theorem assignMoney_not_clock_independent :
    (assignMoney exClock exData "food" 10 5).1.id ≠
      (assignMoney exClock2 exData "food" 10 5).1.id := by decide

/-- C5: `calculateGoalProgress` fails (returns the goal-not-found
error, modelled as `none`) iff no goal with the requested id exists;
when a matching goal exists, the returned `progress` is
`currentAmount / targetAmount * 100`, and `0` when `targetAmount` is 0.
(The ledger is unchanged in either case: in this embedding the
operation is a pure function that returns no mutated ledger, matching
the source, which never writes to `this.data`.) -/
theorem calculateGoalProgress_spec (ck : Clock) (d : BudgetData) (goalId : String) :
    (calculateGoalProgress ck d goalId = none ↔ ∀ g ∈ d.goals, g.id ≠ goalId) ∧
    (∀ r, calculateGoalProgress ck d goalId = some r →
      ∃ g, g ∈ d.goals ∧ g.id = goalId ∧
        (0 < g.targetAmount → r.progress = g.currentAmount / g.targetAmount * 100) ∧
        (g.targetAmount = 0 → r.progress = 0)) := by
  rcases hfind : d.goals.find? (fun g => g.id = goalId) with _ | g
  · have hnone : calculateGoalProgress ck d goalId = none := by
      simp [calculateGoalProgress, hfind]
    refine ⟨⟨fun _ g hg => ?_, fun _ => hnone⟩, fun r hr => ?_⟩
    · have := List.find?_eq_none.mp hfind g hg
      simpa using this
    · rw [hnone] at hr
      exact Option.noConfusion hr
  · have hmem := List.mem_of_find?_eq_some hfind
    have hid : g.id = goalId := by simpa using List.find?_some hfind
    refine ⟨⟨fun hn => ?_, fun hall => absurd hid (hall g hmem)⟩, fun r hr => ?_⟩
    · simp [calculateGoalProgress, hfind] at hn
    · simp only [calculateGoalProgress, hfind] at hr
      have hr' := Option.some.inj hr
      refine ⟨g, hmem, hid, fun ht => ?_, fun ht => ?_⟩
      · rw [← hr']
        simp [ht]
      · rw [← hr']
        simp [ht]

/-- Witness for C5 at a concrete ledger: looking up a missing goal id
fails, and looking up goal `g1` (1500 of 6000) reports 25% progress. -/
theorem calculateGoalProgress_spec_witness :
    (calculateGoalProgress exClock exData "missing" = none) ∧
    (∃ g, g ∈ exData.goals ∧ g.id = "g1" ∧
      (0 < g.targetAmount →
        (⟨25, 0, true, 0⟩ : GoalProgress).progress = g.currentAmount / g.targetAmount * 100) ∧
      (g.targetAmount = 0 → (⟨25, 0, true, 0⟩ : GoalProgress).progress = 0)) :=
  ⟨(calculateGoalProgress_spec exClock exData "missing").1.mpr (by decide),
   (calculateGoalProgress_spec exClock exData "g1").2 ⟨25, 0, true, 0⟩
     (by norm_num [calculateGoalProgress, exData, goalTimeline, List.find?])⟩

end BudgetEngine

namespace BudgetEngine

theorem finalizePlan_mem (extra : ℚ) :
    ∀ (i : ℕ) (l : List PlanEntry) (e : PlanEntry), e ∈ finalizePlan extra i l →
      ∃ e2 ∈ l, e.accountId = e2.accountId ∧ e.minimumPayment = e2.minimumPayment ∧
        e.balance = e2.balance ∧ e.interestRate = e2.interestRate
  | _, [], e, h => absurd h (List.not_mem_nil e)
  | i, x :: xs, e, h => by
    rcases List.mem_cons.mp h with h0 | h1
    · exact ⟨x, List.mem_cons_self x xs, by rw [h0], by rw [h0], by rw [h0], by rw [h0]⟩
    · obtain ⟨e2, hmem, h2⟩ := finalizePlan_mem extra (i + 1) xs e h1
      exact ⟨e2, List.mem_cons_of_mem x hmem, h2⟩

/-- Every entry of the final payoff plan carries the id and the
stage-one `minimumPayment` of one of the ledger's debt accounts. -/
theorem calculateDebtPayoffPlan_entry_source (d : BudgetData) (extra : ℚ)
    (strat : Strategy) (e : PlanEntry) (he : e ∈ calculateDebtPayoffPlan d extra strat) :
    ∃ a2, a2 ∈ getDebtAccounts d ∧ e.accountId = a2.id ∧
      e.minimumPayment = (toPlanEntry a2).minimumPayment ∧
      e.balance = (toPlanEntry a2).balance ∧ e.interestRate = (toPlanEntry a2).interestRate := by
  have hmm : ∃ e2 ∈ ((getDebtAccounts d).map toPlanEntry), e.accountId = e2.accountId ∧
      e.minimumPayment = e2.minimumPayment ∧ e.balance = e2.balance ∧
      e.interestRate = e2.interestRate := by
    cases strat with
    | avalanche =>
      simp only [calculateDebtPayoffPlan] at he
      obtain ⟨e2, hmem, h2⟩ := finalizePlan_mem extra 0 _ e he
      exact ⟨e2, (List.perm_insertionSort avalancheRel _).mem_iff.mp hmem, h2⟩
    | snowball =>
      simp only [calculateDebtPayoffPlan] at he
      obtain ⟨e2, hmem, h2⟩ := finalizePlan_mem extra 0 _ e he
      exact ⟨e2, (List.perm_insertionSort snowballRel _).mem_iff.mp hmem, h2⟩
  obtain ⟨e2, hmem, hacc, hmin, hbal, hrate⟩ := hmm
  obtain ⟨a2, ha2, rfl⟩ := List.mem_map.mp hmem
  exact ⟨a2, ha2, hacc, hmin, hbal, hrate⟩

/-- C2 (amended): in `calculateDebtPayoffPlan`, a loan's
`minimumPayment` is the standard fixed-payment amortization value
`B·r·(1+r)^n / ((1+r)^n − 1)` with `r = annualRate/100/12`, `n = 120`
whenever `interestRate` is present and nonzero; when `interestRate` is
absent or 0 (JS-falsy) the plan sets `minimumPayment = 0` — the
`balance/n` zero-rate branch of `calculateLoanPayment` is unreachable
from the plan.  Every plan entry's `minimumPayment` is the stage-one
value of its debt account. -/
theorem loanMinimumPayment_amortization (d : BudgetData) (extra : ℚ) (strat : Strategy)
    (a : Account) (_ha : a ∈ d.accounts) (hloan : a.type = .loan) :
    ((∃ r, a.interestRate = some r ∧ r ≠ 0 ∧
        (toPlanEntry a).minimumPayment =
          |a.balance| * (r / 100 / 12 * (1 + r / 100 / 12) ^ (120 : ℕ)) /
            ((1 + r / 100 / 12) ^ (120 : ℕ) - 1)) ∨
      ((a.interestRate = none ∨ a.interestRate = some 0) ∧
        (toPlanEntry a).minimumPayment = 0)) ∧
    (∀ e ∈ calculateDebtPayoffPlan d extra strat, ∃ a2, a2 ∈ getDebtAccounts d ∧
      e.accountId = a2.id ∧ e.minimumPayment = (toPlanEntry a2).minimumPayment) := by
  constructor
  · have hnotcc : ¬(a.type = AccountType.credit_card) := by rw [hloan]; intro h; cases h
    rcases hrate : a.interestRate with _ | r
    · refine Or.inr ⟨Or.inl rfl, ?_⟩
      simp [toPlanEntry, hnotcc, hrate, truthyQ]
    · by_cases hr : r = 0
      · subst hr
        refine Or.inr ⟨Or.inr rfl, ?_⟩
        simp [toPlanEntry, hnotcc, hrate, truthyQ]
      · refine Or.inl ⟨r, rfl, hr, ?_⟩
        have hmr : r / 100 / 12 ≠ 0 := div_ne_zero (div_ne_zero hr (by norm_num)) (by norm_num)
        simp [toPlanEntry, hnotcc, hrate, truthyQ, hr, calculateLoanPayment, hmr]
  · intro e he
    obtain ⟨a2, ha2, hacc, hmin, _, _⟩ :=
      calculateDebtPayoffPlan_entry_source d extra strat e he
    exact ⟨a2, ha2, hacc, hmin⟩

/-- Witness for C2 (amended) at a concrete ledger: a 6%-rate loan of
balance 10000 is in the ledger and the amended statement holds there. -/
theorem loanMinimumPayment_amortization_witness :
    exLoanAcc ∈ exDataLoan2.accounts ∧ exLoanAcc.type = .loan ∧
    ((∃ r, exLoanAcc.interestRate = some r ∧ r ≠ 0 ∧
        (toPlanEntry exLoanAcc).minimumPayment =
          |exLoanAcc.balance| * (r / 100 / 12 * (1 + r / 100 / 12) ^ (120 : ℕ)) /
            ((1 + r / 100 / 12) ^ (120 : ℕ) - 1)) ∨
      ((exLoanAcc.interestRate = none ∨ exLoanAcc.interestRate = some 0) ∧
        (toPlanEntry exLoanAcc).minimumPayment = 0)) :=
  ⟨List.mem_cons_self _ _, rfl,
   (loanMinimumPayment_amortization exDataLoan2 0 .avalanche exLoanAcc
     (List.mem_cons_self _ _) rfl).1⟩

/-- C2 is false as stated for a zero-rate loan: the plan for a loan of
balance 1200 with `interestRate = 0` reports `minimumPayment = 0`,
not `balance / n = 1200 / 120 = 10`. -/
theorem calculateDebtPayoffPlan_loanZeroRate :
    (calculateDebtPayoffPlan exDataLoan 0 .avalanche).map PlanEntry.minimumPayment = [0] ∧
    (0 : ℚ) ≠ 1200 / 120 := by
  constructor
  · simp [calculateDebtPayoffPlan, exDataLoan, getDebtAccounts, toPlanEntry,
      finalizePlan, List.insertionSort, List.orderedInsert, truthyQ, List.filter]
  · norm_num

end BudgetEngine

namespace BudgetEngine

theorem calculateCategoryAvailable_unfold (d : BudgetData) (c : String) (M : ℤ) :
    calculateCategoryAvailable d c M =
      ((d.budgets.find? (budgetKey c (M - 1))).map Budget.available).getD 0 +
        ((d.budgets.find? (budgetKey c M)).map Budget.assigned).getD 0 +
        getCategoryActivity d c M := rfl

/-- C1: the carry-forward invariant.  On a ledger whose stored
`available` for the `(c, M-1)` record matches the recomputed value (the
spec's data-model invariant), `calculateCategoryAvailable (c, M)` equals
`calculateCategoryAvailable (c, M-1)` plus the `(c, M)` record's
`assigned` (0 if absent) plus the signed activity of month `M`, the
recursion bottoming out at 0 when no `(c, M-1)` record exists. -/
theorem calculateCategoryAvailable_carry (d : BudgetData) (c : String) (M : ℤ)
    (h : ∀ b ∈ d.budgets, b.categoryId = c → b.month = M - 1 →
      b.available = calculateCategoryAvailable d c (M - 1)) :
    calculateCategoryAvailable d c M =
      (if ∃ b ∈ d.budgets, b.categoryId = c ∧ b.month = M - 1 then
        calculateCategoryAvailable d c (M - 1) else 0) +
      ((d.budgets.find? (budgetKey c M)).map Budget.assigned).getD 0 +
      getCategoryActivity d c M := by
  rw [calculateCategoryAvailable_unfold d c M]
  rcases hfind : d.budgets.find? (budgetKey c (M - 1)) with _ | b0
  · have hex : ¬∃ b ∈ d.budgets, b.categoryId = c ∧ b.month = M - 1 := by
      rintro ⟨b, hb, hbc, hbm⟩
      have := List.find?_eq_none.mp hfind b hb
      simp [budgetKey, hbc, hbm] at this
    rw [if_neg hex]
    simp
  · have hmem := List.mem_of_find?_eq_some hfind
    obtain ⟨hbc, hbm⟩ := budgetKey_iff.mp (List.find?_some hfind)
    have hex : ∃ b ∈ d.budgets, b.categoryId = c ∧ b.month = M - 1 := ⟨b0, hmem, hbc, hbm⟩
    rw [if_pos hex]
    simp [h b0 hmem hbc hbm]

/-- Witness for C1: on the concrete consistent ledger the hypothesis
holds and the carry-forward identity evaluates at month 10. -/
theorem calculateCategoryAvailable_carry_witness :
    (∀ b ∈ exDataC1.budgets, b.categoryId = "food" → b.month = 10 - 1 →
      b.available = calculateCategoryAvailable exDataC1 "food" (10 - 1)) ∧
    calculateCategoryAvailable exDataC1 "food" 10 =
      (if ∃ b ∈ exDataC1.budgets, b.categoryId = "food" ∧ b.month = 10 - 1 then
        calculateCategoryAvailable exDataC1 "food" (10 - 1) else 0) +
      ((exDataC1.budgets.find? (budgetKey "food" 10)).map Budget.assigned).getD 0 +
      getCategoryActivity exDataC1 "food" 10 := by
  have h : ∀ b ∈ exDataC1.budgets, b.categoryId = "food" → b.month = 10 - 1 →
      b.available = calculateCategoryAvailable exDataC1 "food" (10 - 1) := by
    intro b hb _ _
    simp only [exDataC1, List.mem_singleton] at hb
    subst hb
    norm_num [calculateCategoryAvailable, exDataC1, getCategoryActivity,
      getPreviousMonth, budgetKey, List.find?, List.filter]
  exact ⟨h, calculateCategoryAvailable_carry exDataC1 "food" 10 h⟩

theorem filter_sub {α : Type} {p q : α → Bool} (himp : ∀ x, p x = true → q x = true) :
    ∀ l : List α, (l.filter q).filter p = l.filter p
  | [] => rfl
  | x :: xs => by
    by_cases hq : q x = true
    · simp [List.filter_cons, hq, filter_sub himp xs]
    · have hp : p x = false := by
        cases hpx : p x with
        | true => exact absurd (himp x hpx) hq
        | false => rfl
      simp [List.filter_cons, hq, hp, filter_sub himp xs]

/-- C3: `calculateAvailableToBudget M` is the month's income plus
`max 0 (prior income − prior total assigned)` minus the prior month's
overspending (per-envelope `max 0 (-available)`, summed over that
month's budget records); and the lookback into the transaction history
is exactly one month — restricting the ledger's transactions to months
`M` and `M-1` does not change the result. -/
theorem calculateAvailableToBudget_spec (d : BudgetData) (M : ℤ) :
    calculateAvailableToBudget d M =
      ((d.transactions.filter (fun t => t.month = M ∧ t.type = .income)).map
        Transaction.amount).sum +
      max 0 (((d.transactions.filter (fun t => t.month = M - 1 ∧ t.type = .income)).map
          Transaction.amount).sum -
        ((d.budgets.filter (fun b => b.month = M - 1)).map Budget.assigned).sum) -
      ((d.budgets.filter (fun b => b.month = M - 1)).map
        (fun b => max 0 (-(calculateCategoryAvailable d b.categoryId (M - 1))))).sum ∧
    calculateAvailableToBudget
        { d with transactions :=
            d.transactions.filter (fun t => t.month = M ∨ t.month = M - 1) } M =
      calculateAvailableToBudget d M := by
  constructor
  · simp only [calculateAvailableToBudget, getMonthlyIncome, calculateOverspending,
      getPreviousMonth]
    rw [foldl_add_eq Transaction.amount, foldl_add_eq Transaction.amount,
      foldl_add_eq Budget.assigned,
      foldl_add_eq (fun b : Budget => max 0 (-(calculateCategoryAvailable d b.categoryId (M - 1))))]
    simp
  · have hinc : ∀ m', m' = M ∨ m' = M - 1 →
        getMonthlyIncome
          { d with transactions :=
              d.transactions.filter (fun t => t.month = M ∨ t.month = M - 1) } m' =
          getMonthlyIncome d m' := by
      intro m' hm'
      simp only [getMonthlyIncome]
      rw [filter_sub]
      intro t ht
      simp only [decide_eq_true_eq] at ht ⊢
      rcases hm' with rfl | rfl
      · exact Or.inl ht.1
      · exact Or.inr ht.1
    have hact : ∀ c : String,
        getCategoryActivity
          { d with transactions :=
              d.transactions.filter (fun t => t.month = M ∨ t.month = M - 1) } c (M - 1) =
          getCategoryActivity d c (M - 1) := by
      intro c
      simp only [getCategoryActivity]
      rw [filter_sub]
      intro t ht
      simp only [decide_eq_true_eq] at ht ⊢
      exact Or.inr ht.1
    have hcca : ∀ c : String,
        calculateCategoryAvailable
          { d with transactions :=
              d.transactions.filter (fun t => t.month = M ∨ t.month = M - 1) } c (M - 1) =
          calculateCategoryAvailable d c (M - 1) := by
      intro c
      simp only [calculateCategoryAvailable]
      rw [hact c]
    have hover : calculateOverspending
        { d with transactions :=
            d.transactions.filter (fun t => t.month = M ∨ t.month = M - 1) } (M - 1) =
        calculateOverspending d (M - 1) := by
      simp only [calculateOverspending]
      congr 1
      funext sum b
      rw [hcca b.categoryId]
    simp only [calculateAvailableToBudget, getPreviousMonth]
    rw [hinc M (Or.inl rfl), hinc (M - 1) (Or.inr rfl), hover]

end BudgetEngine

namespace BudgetEngine

theorem uniqueBudgets_iff (l : List Budget) :
    UniqueBudgets l ↔ (l.map keyPair).Pairwise (fun p q => p ≠ q) := by
  rw [UniqueBudgets, List.pairwise_map]
  refine List.Pairwise.iff ?_
  intro a b
  simp [keyPair, Prod.ext_iff, not_and]

theorem map_keyPair_updateBudget_assigned (c : String) (m : ℤ) (x : ℚ) (l : List Budget) :
    (updateBudget c m (fun b => { b with assigned := b.assigned + x }) l).map keyPair =
      l.map keyPair :=
  @map_updateBudget (String × ℤ) c m (fun b => { b with assigned := b.assigned + x }) keyPair
    (fun _ _ => rfl) l

theorem map_keyPair_updateBudget_avail (c : String) (m : ℤ) (v : ℚ) (l : List Budget) :
    (updateBudget c m (fun b => { b with available := v }) l).map keyPair = l.map keyPair :=
  @map_updateBudget (String × ℤ) c m (fun b => { b with available := v }) keyPair
    (fun _ _ => rfl) l

theorem assignMoney_sumAssigned (ck : Clock) (d : BudgetData) (c : String) (m : ℤ)
    (a : ℚ) :
    sumAssigned (assignMoney ck d c m a).2.budgets = sumAssigned d.budgets + a := by
  rcases hfind : d.budgets.find? (budgetKey c m) with _ | b0
  · simp only [assignMoney, hfind]
    rw [sumAssigned_append]
  · simp only [assignMoney, hfind]
    rw [sumAssigned_updateBudget_avail, sumAssigned_updateBudget_add]
    rw [hfind]
    rfl

theorem assignMoney_unique (ck : Clock) (d : BudgetData) (c : String) (m : ℤ) (a : ℚ)
    (h : UniqueBudgets d.budgets) : UniqueBudgets (assignMoney ck d c m a).2.budgets := by
  rcases hfind : d.budgets.find? (budgetKey c m) with _ | b0
  · simp only [assignMoney, hfind]
    refine List.pairwise_append.mpr ⟨h, List.pairwise_singleton _ _, ?_⟩
    intro x hx y hy
    have hxkey := List.find?_eq_none.mp hfind x hx
    rcases List.mem_singleton.mp hy with rfl
    intro hcontra
    apply hxkey
    rw [budgetKey_iff]
    exact ⟨hcontra.1, hcontra.2⟩
  · simp only [assignMoney, hfind]
    rw [uniqueBudgets_iff] at h ⊢
    rw [map_keyPair_updateBudget_avail, map_keyPair_updateBudget_assigned]
    exact h

end BudgetEngine

namespace BudgetEngine

theorem autoAssignPass1_rem_nonneg (ck : Clock) (month : ℤ) :
    ∀ (cs : List String) (acc : List Budget) (rem : ℚ) (d : BudgetData), 0 ≤ rem →
      0 ≤ (autoAssignPass1 ck month cs (acc, rem, d)).2.1
  | [], _, _, _, h0 => h0
  | c :: cs, acc, rem, d, h0 => by
    simp only [autoAssignPass1]
    split
    · exact h0
    · exact autoAssignPass1_rem_nonneg ck month cs _ _ _
        (by have := min_le_right |calculateCategoryAvailable d c month| rem; linarith)

theorem autoAssignPass1_sum (ck : Clock) (month : ℤ) :
    ∀ (cs : List String) (acc : List Budget) (rem : ℚ) (d : BudgetData),
      sumAssigned (autoAssignPass1 ck month cs (acc, rem, d)).2.2.budgets +
        (autoAssignPass1 ck month cs (acc, rem, d)).2.1 = sumAssigned d.budgets + rem
  | [], _, _, _ => rfl
  | c :: cs, acc, rem, d => by
    simp only [autoAssignPass1]
    split
    · rfl
    · have ih := autoAssignPass1_sum ck month cs
        (acc ++ [(assignMoney ck d c month (min |calculateCategoryAvailable d c month| rem)).1])
        (rem - min |calculateCategoryAvailable d c month| rem)
        (assignMoney ck d c month (min |calculateCategoryAvailable d c month| rem)).2
      rw [ih, assignMoney_sumAssigned]
      ring

theorem autoAssignPass1_unique (ck : Clock) (month : ℤ) :
    ∀ (cs : List String) (acc : List Budget) (rem : ℚ) (d : BudgetData),
      UniqueBudgets d.budgets →
      UniqueBudgets (autoAssignPass1 ck month cs (acc, rem, d)).2.2.budgets
  | [], _, _, _, hu => hu
  | c :: cs, acc, rem, d, hu => by
    simp only [autoAssignPass1]
    split
    · exact hu
    · exact autoAssignPass1_unique ck month cs _ _ _ (assignMoney_unique _ _ _ _ _ hu)

theorem autoAssignPass2_rem_nonneg (ck : Clock) (month : ℤ) :
    ∀ (cs : List String) (acc : List Budget) (rem : ℚ) (d : BudgetData), 0 ≤ rem →
      0 ≤ (autoAssignPass2 ck month cs (acc, rem, d)).2.1
  | [], _, _, _, h0 => h0
  | c :: cs, acc, rem, d, h0 => by
    simp only [autoAssignPass2]
    split
    · exact h0
    · split
      · split
        · split
          · split
            · exact autoAssignPass2_rem_nonneg ck month cs _ _ _
                (by rw [sub_nonneg]; exact min_le_right _ _)
            · exact autoAssignPass2_rem_nonneg ck month cs _ _ _ h0
          · exact autoAssignPass2_rem_nonneg ck month cs _ _ _ h0
        · exact autoAssignPass2_rem_nonneg ck month cs _ _ _ h0
      · exact autoAssignPass2_rem_nonneg ck month cs _ _ _ h0

theorem autoAssignPass2_sum (ck : Clock) (month : ℤ) :
    ∀ (cs : List String) (acc : List Budget) (rem : ℚ) (d : BudgetData),
      sumAssigned (autoAssignPass2 ck month cs (acc, rem, d)).2.2.budgets +
        (autoAssignPass2 ck month cs (acc, rem, d)).2.1 = sumAssigned d.budgets + rem
  | [], _, _, _ => rfl
  | c :: cs, acc, rem, d => by
    simp only [autoAssignPass2]
    split
    · rfl
    · split
      · split
        · split
          · split
            · rw [autoAssignPass2_sum ck month cs, assignMoney_sumAssigned]
              ring
            · exact autoAssignPass2_sum ck month cs _ _ _
          · exact autoAssignPass2_sum ck month cs _ _ _
        · exact autoAssignPass2_sum ck month cs _ _ _
      · exact autoAssignPass2_sum ck month cs _ _ _

theorem autoAssignPass2_unique (ck : Clock) (month : ℤ) :
    ∀ (cs : List String) (acc : List Budget) (rem : ℚ) (d : BudgetData),
      UniqueBudgets d.budgets →
      UniqueBudgets (autoAssignPass2 ck month cs (acc, rem, d)).2.2.budgets
  | [], _, _, _, hu => hu
  | c :: cs, acc, rem, d, hu => by
    simp only [autoAssignPass2]
    split
    · exact hu
    · split
      · split
        · split
          · split
            · exact autoAssignPass2_unique ck month cs _ _ _
                (assignMoney_unique _ _ _ _ _ hu)
            · exact autoAssignPass2_unique ck month cs _ _ _ hu
          · exact autoAssignPass2_unique ck month cs _ _ _ hu
        · exact autoAssignPass2_unique ck month cs _ _ _ hu
      · exact autoAssignPass2_unique ck month cs _ _ _ hu

end BudgetEngine

namespace BudgetEngine

theorem autoAssignMoney_unique (ck : Clock) (d : BudgetData) (month : ℤ)
    (prios : List String) (h : UniqueBudgets d.budgets) :
    UniqueBudgets (autoAssignMoney ck d month prios).2.budgets := by
  by_cases htbb : (getMonthlyBudgetSummary d month).toBeBudgeted ≤ 0
  · simpa [autoAssignMoney, htbb] using h
  · simp only [autoAssignMoney]
    rw [if_neg htbb]
    rcases hst1 : autoAssignPass1 ck month (getOverspentCategories d month)
      ([], (getMonthlyBudgetSummary d month).toBeBudgeted, d) with ⟨acc1, st1⟩
    rcases st1 with ⟨rem1, d1⟩
    have h1 := autoAssignPass1_unique ck month (getOverspentCategories d month) []
      (getMonthlyBudgetSummary d month).toBeBudgeted d h
    rw [hst1] at h1
    exact autoAssignPass2_unique ck month prios acc1 rem1 d1 h1

/-- C8: the at-most-one-Budget-record-per-(categoryId, month) invariant
is preserved by any sequence of `assignMoney` and `autoAssignMoney`
calls: `assignMoney` updates the existing record in place when one
exists and appends a new record only when none exists, and
`autoAssignMoney` only mutates the ledger through `assignMoney`. -/
theorem engineOps_preserve_uniqueBudgets :
    ∀ (ops : List EngineOp) (d : BudgetData), UniqueBudgets d.budgets →
      UniqueBudgets ((ops.foldl applyOp d).budgets)
  | [], _, h => h
  | op :: rest, d, h => by
    rw [List.foldl_cons]
    refine engineOps_preserve_uniqueBudgets rest _ ?_
    cases op with
    | assign ck c m a => exact assignMoney_unique ck d c m a h
    | autoAssign ck m prios => exact autoAssignMoney_unique ck d m prios h

/-- Witness for C8: a unique-keyed concrete ledger stays unique-keyed
after an `assignMoney` followed by an `autoAssignMoney`. -/
theorem engineOps_preserve_uniqueBudgets_witness :
    UniqueBudgets exData.budgets ∧
    UniqueBudgets (([EngineOp.assign exClock "food" 10 5,
      EngineOp.autoAssign exClock 10 []].foldl applyOp exData).budgets) := by
  have h : UniqueBudgets exData.budgets := List.Pairwise.nil
  exact ⟨h, engineOps_preserve_uniqueBudgets _ exData h⟩

/-- C4: `autoAssignMoney` never assigns more than the pre-call
`toBeBudgeted`: the total `assigned` money it adds across the ledger is
at most the pre-call `toBeBudgeted` when that is positive, and when the
pre-call `toBeBudgeted ≤ 0` it assigns nothing and returns the empty
list with the ledger untouched. -/
theorem autoAssignMoney_bound (ck : Clock) (d : BudgetData) (month : ℤ)
    (prios : List String) :
    (0 < (getMonthlyBudgetSummary d month).toBeBudgeted →
      sumAssigned (autoAssignMoney ck d month prios).2.budgets - sumAssigned d.budgets ≤
        (getMonthlyBudgetSummary d month).toBeBudgeted) ∧
    ((getMonthlyBudgetSummary d month).toBeBudgeted ≤ 0 →
      (autoAssignMoney ck d month prios).1 = [] ∧
        (autoAssignMoney ck d month prios).2 = d) := by
  by_cases htbb : (getMonthlyBudgetSummary d month).toBeBudgeted ≤ 0
  · refine ⟨fun h0 => absurd htbb (not_le.mpr h0), fun _ => ?_⟩
    constructor <;> simp [autoAssignMoney, htbb]
  · refine ⟨fun h0 => ?_, fun hle => absurd hle htbb⟩
    simp only [autoAssignMoney]
    rw [if_neg htbb]
    rcases hst1 : autoAssignPass1 ck month (getOverspentCategories d month)
      ([], (getMonthlyBudgetSummary d month).toBeBudgeted, d) with ⟨acc1, st1⟩
    rcases st1 with ⟨rem1, d1⟩
    have h1n := autoAssignPass1_rem_nonneg ck month (getOverspentCategories d month) []
      (getMonthlyBudgetSummary d month).toBeBudgeted d (le_of_lt h0)
    have h1s := autoAssignPass1_sum ck month (getOverspentCategories d month) []
      (getMonthlyBudgetSummary d month).toBeBudgeted d
    rw [hst1] at h1n h1s
    have h2n := autoAssignPass2_rem_nonneg ck month prios acc1 rem1 d1 h1n
    have h2s := autoAssignPass2_sum ck month prios acc1 rem1 d1
    simp only at h1n h1s h2n h2s
    linarith [h2n, h2s, h1s]

/-- Witness for C4: on the concrete ledger (income 100 in month 10,
nothing assigned) the pre-call `toBeBudgeted` is positive and the bound
holds. -/
theorem autoAssignMoney_bound_witness :
    0 < (getMonthlyBudgetSummary exData 10).toBeBudgeted ∧
    sumAssigned (autoAssignMoney exClock exData 10 []).2.budgets - sumAssigned exData.budgets ≤
      (getMonthlyBudgetSummary exData 10).toBeBudgeted := by
  have h : 0 < (getMonthlyBudgetSummary exData 10).toBeBudgeted := by
    norm_num [getMonthlyBudgetSummary, calculateAvailableToBudget, exData,
      getMonthlyIncome, getPreviousMonth, calculateOverspending, List.filter]
  exact ⟨h, (autoAssignMoney_bound exClock exData 10 []).1 h⟩

end BudgetEngine

namespace BudgetEngine

theorem finalizePlan_length (extra : ℚ) :
    ∀ (i : ℕ) (l : List PlanEntry), (finalizePlan extra i l).length = l.length
  | _, [] => rfl
  | i, e :: es => by simp [finalizePlan, finalizePlan_length extra (i + 1) es]

theorem finalizePlan_map_interestRate (extra : ℚ) :
    ∀ (i : ℕ) (l : List PlanEntry),
      (finalizePlan extra i l).map PlanEntry.interestRate = l.map PlanEntry.interestRate
  | _, [] => rfl
  | i, e :: es => by simp [finalizePlan, finalizePlan_map_interestRate extra (i + 1) es]

theorem finalizePlan_map_balance (extra : ℚ) :
    ∀ (i : ℕ) (l : List PlanEntry),
      (finalizePlan extra i l).map PlanEntry.balance = l.map PlanEntry.balance
  | _, [] => rfl
  | i, e :: es => by simp [finalizePlan, finalizePlan_map_balance extra (i + 1) es]

theorem finalizePlan_map_accountId (extra : ℚ) :
    ∀ (i : ℕ) (l : List PlanEntry),
      (finalizePlan extra i l).map PlanEntry.accountId = l.map PlanEntry.accountId
  | _, [] => rfl
  | i, e :: es => by simp [finalizePlan, finalizePlan_map_accountId extra (i + 1) es]

theorem finalizePlan_get (extra : ℚ) :
    ∀ (l : List PlanEntry) (i j : ℕ) (h : j < (finalizePlan extra i l).length),
      ((finalizePlan extra i l).get ⟨j, h⟩).payoffOrder = i + j + 1 ∧
      ((finalizePlan extra i l).get ⟨j, h⟩).monthsToPayoff =
        (calculatePayoffTime ((finalizePlan extra i l).get ⟨j, h⟩).balance
          ((finalizePlan extra i l).get ⟨j, h⟩).interestRate
          (((finalizePlan extra i l).get ⟨j, h⟩).minimumPayment +
            (if i + j = 0 then extra else 0))).1
  | [], i, j, h => absurd h (by simp [finalizePlan])
  | e :: es, i, 0, h => by
    constructor
    · simp [finalizePlan]
    · simp [finalizePlan]
  | e :: es, i, j + 1, h => by
    have h' : j < (finalizePlan extra (i + 1) es).length := by
      simpa [finalizePlan, Nat.succ_lt_succ_iff] using h
    have ih := finalizePlan_get extra es (i + 1) j h'
    have hidx : i + 1 + j = i + (j + 1) := by omega
    constructor
    · have := ih.1
      simp only [finalizePlan, List.get_cons_succ]
      rw [this, hidx]
    · have := ih.2
      simp only [finalizePlan, List.get_cons_succ]
      rw [← hidx]
      exact this

/-- C6: `calculateDebtPayoffPlan` returns the debt entries sorted by
descending `interestRate` under `avalanche` and ascending `balance`
under `snowball` (one entry per debt account, by id), assigns
`payoffOrder` as the 1-based rank in the sorted order, and computes
each entry's months-to-payoff from its own balance, rate and
`minimumPayment`, where only the first-ranked entry's payment includes
`extraPayment`. -/
theorem calculateDebtPayoffPlan_order (d : BudgetData) (extra : ℚ) (strategy : Strategy) :
    (strategy = .avalanche →
      (calculateDebtPayoffPlan d extra strategy).Pairwise
        (fun x y => y.interestRate ≤ x.interestRate)) ∧
    (strategy = .snowball →
      (calculateDebtPayoffPlan d extra strategy).Pairwise
        (fun x y => x.balance ≤ y.balance)) ∧
    ((calculateDebtPayoffPlan d extra strategy).map PlanEntry.accountId).Perm
      ((getDebtAccounts d).map Account.id) ∧
    (∀ (j : ℕ) (h : j < (calculateDebtPayoffPlan d extra strategy).length),
      ((calculateDebtPayoffPlan d extra strategy).get ⟨j, h⟩).payoffOrder = j + 1 ∧
      ((calculateDebtPayoffPlan d extra strategy).get ⟨j, h⟩).monthsToPayoff =
        (calculatePayoffTime ((calculateDebtPayoffPlan d extra strategy).get ⟨j, h⟩).balance
          ((calculateDebtPayoffPlan d extra strategy).get ⟨j, h⟩).interestRate
          (((calculateDebtPayoffPlan d extra strategy).get ⟨j, h⟩).minimumPayment +
            (if j = 0 then extra else 0))).1) := by
  refine ⟨?_, ?_, ?_, ?_⟩
  · intro hs
    subst hs
    simp only [calculateDebtPayoffPlan]
    have hsorted : (((getDebtAccounts d).map toPlanEntry).insertionSort avalancheRel).Pairwise
        avalancheRel := List.sorted_insertionSort avalancheRel _
    have hmap := finalizePlan_map_interestRate extra 0
      (((getDebtAccounts d).map toPlanEntry).insertionSort avalancheRel)
    have h2 : ((finalizePlan extra 0
          (((getDebtAccounts d).map toPlanEntry).insertionSort avalancheRel)).map
        PlanEntry.interestRate).Pairwise (fun a b => b ≤ a) := by
      rw [hmap]
      exact List.pairwise_map.mpr hsorted
    exact List.pairwise_map.mp h2
  · intro hs
    subst hs
    simp only [calculateDebtPayoffPlan]
    have hsorted : (((getDebtAccounts d).map toPlanEntry).insertionSort snowballRel).Pairwise
        snowballRel := List.sorted_insertionSort snowballRel _
    have hmap := finalizePlan_map_balance extra 0
      (((getDebtAccounts d).map toPlanEntry).insertionSort snowballRel)
    have h2 : ((finalizePlan extra 0
          (((getDebtAccounts d).map toPlanEntry).insertionSort snowballRel)).map
        PlanEntry.balance).Pairwise (fun a b => a ≤ b) := by
      rw [hmap]
      exact List.pairwise_map.mpr hsorted
    exact List.pairwise_map.mp h2
  · have hend : ((getDebtAccounts d).map toPlanEntry).map PlanEntry.accountId =
        (getDebtAccounts d).map Account.id := by
      rw [List.map_map]
      rfl
    cases strategy with
    | avalanche =>
      simp only [calculateDebtPayoffPlan]
      rw [finalizePlan_map_accountId]
      rw [← hend]
      exact (List.perm_insertionSort avalancheRel _).map PlanEntry.accountId
    | snowball =>
      simp only [calculateDebtPayoffPlan]
      rw [finalizePlan_map_accountId]
      rw [← hend]
      exact (List.perm_insertionSort snowballRel _).map PlanEntry.accountId
  · intro j h
    cases strategy with
    | avalanche =>
      simp only [calculateDebtPayoffPlan] at h ⊢
      have := finalizePlan_get extra
        (((getDebtAccounts d).map toPlanEntry).insertionSort avalancheRel) 0 j h
      simpa using this
    | snowball =>
      simp only [calculateDebtPayoffPlan] at h ⊢
      have := finalizePlan_get extra
        (((getDebtAccounts d).map toPlanEntry).insertionSort snowballRel) 0 j h
      simpa using this

end BudgetEngine

namespace BudgetEngine

/-- Witness for C6 on a concrete two-card ledger under `avalanche`:
the plan is sorted by descending rate, is a permutation of the debt
accounts' ids, and the first-ranked entry has `payoffOrder = 1` with
its payment including the extra 50. -/
theorem calculateDebtPayoffPlan_order_witness :
    (calculateDebtPayoffPlan exDataTwoCards 50 .avalanche).Pairwise
      (fun x y => y.interestRate ≤ x.interestRate) ∧
    ((calculateDebtPayoffPlan exDataTwoCards 50 .avalanche).map PlanEntry.accountId).Perm
      ((getDebtAccounts exDataTwoCards).map Account.id) ∧
    ((calculateDebtPayoffPlan exDataTwoCards 50 .avalanche).get
      ⟨0, by
        simp only [calculateDebtPayoffPlan, finalizePlan_length, List.length_insertionSort]
        simp [getDebtAccounts, exDataTwoCards, List.filter]⟩).payoffOrder = 1 :=
  ⟨(calculateDebtPayoffPlan_order exDataTwoCards 50 .avalanche).1 rfl,
   (calculateDebtPayoffPlan_order exDataTwoCards 50 .avalanche).2.2.1,
   ((calculateDebtPayoffPlan_order exDataTwoCards 50 .avalanche).2.2.2 0 (by
      simp only [calculateDebtPayoffPlan, finalizePlan_length, List.length_insertionSort]
      simp [getDebtAccounts, exDataTwoCards, List.filter])).1⟩

end BudgetEngine

namespace BudgetEngine

theorem jsLog_pos {x : ℝ} (h : 0 < x) : jsLog x = .num (Real.log x) := by
  simp [jsLog, h]

theorem jsLog_zero : jsLog 0 = .negInf := by simp [jsLog]

theorem jsLog_neg {x : ℝ} (h : x < 0) : jsLog x = .nan := by
  simp [jsLog, not_lt.mpr (le_of_lt h), ne_of_lt h]

/-- The concrete plan for `exDataCard` (2% minimum 200 below the 300
monthly interest): both `monthsToPayoff` and `totalInterest` are NaN. -/
theorem exDataCard_plan_nan :
    (calculateDebtPayoffPlan exDataCard 0 .avalanche).map PlanEntry.monthsToPayoff =
      [JSNum.nan] ∧
    (calculateDebtPayoffPlan exDataCard 0 .avalanche).map PlanEntry.totalInterest =
      [JSNum.nan] := by
  have hpt : calculatePayoffTime 10000 36 200 = (JSNum.nan, JSNum.nan) := by
    have hneg : (((1 - (10000 : ℚ) * (36 / 100 / 12) / 200) : ℚ) : ℝ) < 0 := by
      push_cast
      norm_num
    simp only [calculatePayoffTime]
    rw [if_neg (by norm_num), if_neg (by norm_num)]
    rw [jsLog_neg hneg]
    simp [jsNeg, jsDiv, jsCeil, jsMul, jsSub, jsMax0]
  constructor <;>
  · simp only [calculateDebtPayoffPlan, getDebtAccounts, exDataCard]
    norm_num [List.filter, List.insertionSort, List.orderedInsert, finalizePlan,
      toPlanEntry, truthyQ, hpt]

/-- C10: for a positive rate and positive payment, the payoff horizon
is finite iff the payment strictly exceeds the first month's interest
`balance × r` (`r = annualRate/100/12`); at `payment = balance × r` the
months value is `Infinity` and below it the months value is `NaN`, with
no error raised, so `calculateDebtPayoffPlan` emits NaN
`monthsToPayoff` and `totalInterest` for an under-covering positive
payment (concretely for `exDataCard`). -/
theorem calculatePayoffTime_finite_iff (balance annualRate payment : ℚ)
    (hr : 0 < annualRate) (hp : 0 < payment) :
    (isFiniteNum (calculatePayoffTime balance annualRate payment).1 = true ↔
      balance * (annualRate / 100 / 12) < payment) ∧
    (payment = balance * (annualRate / 100 / 12) →
      (calculatePayoffTime balance annualRate payment).1 = JSNum.posInf) ∧
    (payment < balance * (annualRate / 100 / 12) →
      (calculatePayoffTime balance annualRate payment).1 = JSNum.nan) ∧
    (calculateDebtPayoffPlan exDataCard 0 .avalanche).map PlanEntry.monthsToPayoff =
      [JSNum.nan] ∧
    (calculateDebtPayoffPlan exDataCard 0 .avalanche).map PlanEntry.totalInterest =
      [JSNum.nan] := by
  set r : ℚ := annualRate / 100 / 12 with hrdef
  have hr0 : 0 < r := by rw [hrdef]; positivity
  have hrne : ¬(r = 0) := by exact ne_of_gt hr0
  have hpne : ¬(payment ≤ 0) := not_le.mpr hp
  have hkey : calculatePayoffTime balance annualRate payment =
      (jsCeil (jsDiv (jsNeg (jsLog ((1 - balance * r / payment : ℚ) : ℝ)))
        (jsLog ((1 + r : ℚ) : ℝ))),
       jsMax0 (jsSub (jsMul payment
        (jsCeil (jsDiv (jsNeg (jsLog ((1 - balance * r / payment : ℚ) : ℝ)))
          (jsLog ((1 + r : ℚ) : ℝ))))) balance)) := by
    simp only [calculatePayoffTime, ← hrdef]
    rw [if_neg hpne, if_neg hrne]
  have h1r : (1 : ℝ) < ((1 + r : ℚ) : ℝ) := by
    exact_mod_cast (by linarith : (1 : ℚ) < 1 + r)
  have hLpos : (0 : ℝ) < Real.log ((1 + r : ℚ) : ℝ) := Real.log_pos h1r
  have hlog2 : jsLog ((1 + r : ℚ) : ℝ) = .num (Real.log ((1 + r : ℚ) : ℝ)) :=
    jsLog_pos (by linarith)
  have hm_lt : balance * r < payment →
      ∃ z : ℤ, (calculatePayoffTime balance annualRate payment).1 = JSNum.num z := by
    intro hlt
    have h1 : balance * r / payment < 1 := (div_lt_one hp).mpr hlt
    have hargR : (0 : ℝ) < ((1 - balance * r / payment : ℚ) : ℝ) := by
      exact_mod_cast (by linarith : (0 : ℚ) < 1 - balance * r / payment)
    refine ⟨⌈-Real.log ((1 - balance * r / payment : ℚ) : ℝ) /
      Real.log ((1 + r : ℚ) : ℝ)⌉, ?_⟩
    rw [hkey]
    simp only
    rw [jsLog_pos hargR, hlog2]
    simp only [jsNeg, jsDiv]
    rw [if_pos (ne_of_gt hLpos)]
    simp only [jsCeil]
  have hm_eq : balance * r = payment →
      (calculatePayoffTime balance annualRate payment).1 = JSNum.posInf := by
    intro heq
    have hdiv : balance * r / payment = 1 := by rw [heq]; exact div_self (ne_of_gt hp)
    have harg0 : (1 - balance * r / payment : ℚ) = 0 := by rw [hdiv]; ring
    rw [hkey]
    simp only
    rw [harg0]
    rw [show (((0 : ℚ) : ℝ)) = (0 : ℝ) from by norm_num]
    rw [jsLog_zero, hlog2]
    simp only [jsNeg, jsDiv]
    rw [if_pos (le_of_lt hLpos)]
    simp only [jsCeil]
  have hm_gt : payment < balance * r →
      (calculatePayoffTime balance annualRate payment).1 = JSNum.nan := by
    intro hgt
    have h1 : 1 < balance * r / payment := (one_lt_div hp).mpr hgt
    have hargR : ((1 - balance * r / payment : ℚ) : ℝ) < 0 := by
      exact_mod_cast (by linarith : (1 - balance * r / payment : ℚ) < 0)
    rw [hkey]
    simp only
    rw [jsLog_neg hargR]
    simp [jsNeg, jsDiv, jsCeil]
  refine ⟨⟨?_, ?_⟩, ?_, ?_, exDataCard_plan_nan.1, exDataCard_plan_nan.2⟩
  · intro hfin
    rcases lt_trichotomy (balance * r) payment with h | h | h
    · exact h
    · rw [hm_eq h] at hfin
      exact absurd hfin (by simp [isFiniteNum])
    · rw [hm_gt h] at hfin
      exact absurd hfin (by simp [isFiniteNum])
  · intro hlt
    obtain ⟨z, hz⟩ := hm_lt hlt
    rw [hz]
    rfl
  · intro heq'
    exact hm_eq heq'.symm
  · exact hm_gt

/-- Witness for C10 at rate 1200%/year (monthly rate 1), balance 1 and
payment 1 = balance × r: the horizon is `Infinity`. -/
theorem calculatePayoffTime_finite_iff_witness :
    (0 : ℚ) < 1200 ∧ (0 : ℚ) < 1 ∧
    (calculatePayoffTime 1 1200 1).1 = JSNum.posInf :=
  ⟨by norm_num, by norm_num,
   (calculatePayoffTime_finite_iff 1 1200 1 (by norm_num) (by norm_num)).2.1
     (by norm_num)⟩

end BudgetEngine
